import Mathlib

/-!
Verification of the request-validation-and-normalization pipeline of the
`packers-support-agent` repository (`src/pages/api/packers-agent.ts`).

The TypeScript source is shallowly embedded: JavaScript strings become Lean
`String`/`List Char`, `Date.now()` millisecond timestamps become `Nat`,
JSON values become the inductive `Json`, fallible operations return
`Option`/`Except`.  Each definition is translated from the source file;
theorem names refer to the claims they settle.
-/

set_option maxHeartbeats 1000000

/-- JSON values as produced by `JSON.parse`.  Numeric literals are kept as
their source lexeme (a `String`) so that the embedding stays exact and
avoids floating-point semantics; none of the verified properties inspect
numeric values. -/
inductive Json where
  | null : Json
  | bool : Bool → Json
  | num : String → Json
  | str : String → Json
  | arr : List Json → Json
  | obj : List (String × Json) → Json

/-- The left-brace character, written via its code point. -/
def lbrace : Char := Char.ofNat 123

/-- The right-brace character, written via its code point. -/
def rbrace : Char := Char.ofNat 125

/-- JSON whitespace (space, tab, line feed, carriage return). -/
def isJsonWs (c : Char) : Bool :=
  c = ' ' || c = Char.ofNat 9 || c = Char.ofNat 10 || c = Char.ofNat 13

/-- Drop leading JSON whitespace. -/
def skipWs : List Char → List Char
  | [] => []
  | c :: cs => if isJsonWs c then skipWs cs else c :: cs

/-- Value of a hexadecimal digit. -/
def hexDigitVal (c : Char) : Option Nat :=
  if '0' ≤ c ∧ c ≤ '9' then some (c.toNat - '0'.toNat)
  else if 'a' ≤ c ∧ c ≤ 'f' then some (c.toNat - 'a'.toNat + 10)
  else if 'A' ≤ c ∧ c ≤ 'F' then some (c.toNat - 'A'.toNat + 10)
  else none

/-- Parse exactly four hexadecimal digits (the payload of a `\u` escape). -/
def parseHex4 : List Char → Option (Nat × List Char)
  | a :: b :: c :: d :: rest =>
    match hexDigitVal a, hexDigitVal b, hexDigitVal c, hexDigitVal d with
    | some x, some y, some z, some w => some ((((x * 16 + y) * 16 + z) * 16 + w), rest)
    | _, _, _, _ => none
  | _ => none

/-- Turn a UTF-16 code unit from a `\u` escape into a `Char`.  JavaScript
strings may hold lone surrogates; Lean `Char` holds scalar values only, so a
lone surrogate is represented by U+FFFD. -/
def charFromCode (n : Nat) : Char :=
  if 0xd800 ≤ n ∧ n ≤ 0xdfff then Char.ofNat 0xfffd else Char.ofNat n

/-- Parse the body of a JSON string literal (the opening quote already
consumed), returning the decoded characters and the input following the
closing quote.  Implements the escapes accepted by `JSON.parse`, including
surrogate-pair `\uXXXX\uXXXX` escapes, and rejects unescaped control
characters. -/
def parseStringBody : Nat → List Char → Option (List Char × List Char)
  | 0, _ => none
  | _ + 1, [] => none
  | fuel + 1, c :: cs =>
    if c = '"' then some ([], cs)
    else if c.toNat < 32 then none
    else if c = '\\' then
      match cs with
      | [] => none
      | e :: cs2 =>
        if e = '"' ∨ e = '\\' ∨ e = '/' then
          (parseStringBody fuel cs2).map (fun p => (e :: p.1, p.2))
        else if e = 'b' then (parseStringBody fuel cs2).map (fun p => (Char.ofNat 8 :: p.1, p.2))
        else if e = 'f' then (parseStringBody fuel cs2).map (fun p => (Char.ofNat 12 :: p.1, p.2))
        else if e = 'n' then (parseStringBody fuel cs2).map (fun p => (Char.ofNat 10 :: p.1, p.2))
        else if e = 'r' then (parseStringBody fuel cs2).map (fun p => (Char.ofNat 13 :: p.1, p.2))
        else if e = 't' then (parseStringBody fuel cs2).map (fun p => (Char.ofNat 9 :: p.1, p.2))
        else if e = 'u' then
          match parseHex4 cs2 with
          | none => none
          | some (n, cs3) =>
            if 0xd800 ≤ n ∧ n ≤ 0xdbff then
              match cs3 with
              | '\\' :: 'u' :: cs4 =>
                match parseHex4 cs4 with
                | some (m, cs5) =>
                  if 0xdc00 ≤ m ∧ m ≤ 0xdfff then
                    (parseStringBody fuel cs5).map
                      (fun p => (Char.ofNat (0x10000 + (n - 0xd800) * 0x400 + (m - 0xdc00)) :: p.1, p.2))
                  else (parseStringBody fuel cs3).map (fun p => (Char.ofNat 0xfffd :: p.1, p.2))
                | none => (parseStringBody fuel cs3).map (fun p => (Char.ofNat 0xfffd :: p.1, p.2))
              | _ => (parseStringBody fuel cs3).map (fun p => (Char.ofNat 0xfffd :: p.1, p.2))
            else (parseStringBody fuel cs3).map (fun p => (charFromCode n :: p.1, p.2))
        else none
    else (parseStringBody fuel cs).map (fun p => (c :: p.1, p.2))

/-- Decimal digit test. -/
def isDigitCh (c : Char) : Bool := '0' ≤ c && c ≤ '9'

/-- Split off the maximal prefix of decimal digits. -/
def spanDigits : List Char → (List Char × List Char)
  | [] => ([], [])
  | c :: cs =>
    if isDigitCh c then
      let p := spanDigits cs
      (c :: p.1, p.2)
    else ([], c :: cs)

/-- Parse the optional fraction part of a JSON number. -/
def parseFrac : List Char → Option (List Char × List Char)
  | '.' :: rest =>
    let p := spanDigits rest
    if p.1 = [] then none else some ('.' :: p.1, p.2)
  | cs => some ([], cs)

/-- Parse the optional exponent part of a JSON number. -/
def parseExp : List Char → Option (List Char × List Char)
  | [] => some ([], [])
  | c :: rest =>
    if c = 'e' ∨ c = 'E' then
      let sp : List Char × List Char :=
        match rest with
        | '+' :: r => (['+'], r)
        | '-' :: r => (['-'], r)
        | r => ([], r)
      let p := spanDigits sp.2
      if p.1 = [] then none else some (c :: (sp.1 ++ p.1), p.2)
    else some ([], c :: rest)

/-- Parse a JSON number literal, returning its lexeme and the rest of the
input, per the ECMA-404 grammar used by `JSON.parse`. -/
def parseNumber (cs : List Char) : Option (List Char × List Char) :=
  let sp : List Char × List Char :=
    match cs with
    | '-' :: rest => (['-'], rest)
    | rest => ([], rest)
  match sp.2 with
  | [] => none
  | c :: cs2 =>
    let ip : Option (List Char × List Char) :=
      if c = '0' then some ([c], cs2)
      else if isDigitCh c then
        let p := spanDigits cs2
        some (c :: p.1, p.2)
      else none
    match ip with
    | none => none
    | some (ipart, cs3) =>
      match parseFrac cs3 with
      | none => none
      | some (fpart, cs4) =>
        match parseExp cs4 with
        | none => none
        | some (epart, cs5) => some (sp.1 ++ ipart ++ fpart ++ epart, cs5)

/-- Fueled recursive-descent JSON parser, modelling `JSON.parse`.  Returns a
triple of parsers: for a value, for the members of an object (after the
opening brace, first member known present), and for the elements of an array
(after the opening bracket, first element known present).  The fuel only
bounds recursion depth; `2 * length + 2` fuel always suffices for the
inputs handed to it below. -/
def jsonP : Nat →
    ((List Char → Option (Json × List Char)) ×
     (List Char → List (String × Json) → Option (Json × List Char)) ×
     (List Char → List Json → Option (Json × List Char)))
  | 0 => (fun _ => none, fun _ _ => none, fun _ _ => none)
  | fuel + 1 =>
    let pv := (jsonP fuel).1
    let pm := (jsonP fuel).2.1
    let pe := (jsonP fuel).2.2
    ( fun cs =>
        match skipWs cs with
        | [] => none
        | c :: rest =>
          if c = '"' then
            (parseStringBody (rest.length + 1) rest).map
              (fun p => (Json.str (String.mk p.1), p.2))
          else if c = 'n' then
            match rest with
            | 'u' :: 'l' :: 'l' :: r => some (Json.null, r)
            | _ => none
          else if c = 't' then
            match rest with
            | 'r' :: 'u' :: 'e' :: r => some (Json.bool true, r)
            | _ => none
          else if c = 'f' then
            match rest with
            | 'a' :: 'l' :: 's' :: 'e' :: r => some (Json.bool false, r)
            | _ => none
          else if c = lbrace then
            match skipWs rest with
            | c2 :: r2 => if c2 = rbrace then some (Json.obj [], r2) else pm rest []
            | [] => none
          else if c = '[' then
            match skipWs rest with
            | c2 :: r2 => if c2 = ']' then some (Json.arr [], r2) else pe rest []
            | [] => none
          else if c = '-' ∨ isDigitCh c then
            (parseNumber (c :: rest)).map (fun p => (Json.num (String.mk p.1), p.2))
          else none
    , fun cs acc =>
        match skipWs cs with
        | '"' :: r1 =>
          match parseStringBody (r1.length + 1) r1 with
          | none => none
          | some (key, r2) =>
            match skipWs r2 with
            | ':' :: r3 =>
              match pv r3 with
              | none => none
              | some (v, r4) =>
                let acc2 := acc ++ [(String.mk key, v)]
                match skipWs r4 with
                | ',' :: r5 => pm r5 acc2
                | c :: r5 => if c = rbrace then some (Json.obj acc2, r5) else none
                | [] => none
            | _ => none
        | _ => none
    , fun cs acc =>
        match pv cs with
        | none => none
        | some (v, r1) =>
          match skipWs r1 with
          | ',' :: r2 => pe r2 (acc ++ [v])
          | ']' :: r2 => some (Json.arr (acc ++ [v]), r2)
          | _ => none )

/-- Model of `JSON.parse` applied to a character list: parse one value,
allow trailing whitespace, fail (as the `try/catch` in the source turns a
`SyntaxError` into `null`) on anything left over. -/
def jsonParseL (cs : List Char) : Option Json :=
  match (jsonP (2 * cs.length + 2)).1 cs with
  | some (v, rest) => if skipWs rest = [] then some v else none
  | none => none

/-- Index of the first occurrence of a character (`String.prototype.indexOf`),
`none` for `-1`. -/
def idxOf (c : Char) : List Char → Option Nat
  | [] => none
  | x :: xs => if x = c then some 0 else (idxOf c xs).map (· + 1)

/-- Index of the last occurrence of a character
(`String.prototype.lastIndexOf`), `none` for `-1`. -/
def lastIdxOf (c : Char) (cs : List Char) : Option Nat :=
  (idxOf c cs.reverse).map (fun i => cs.length - 1 - i)

/-- Model of `extractFirstJsonObject` (source lines 213–223): locate the
first left brace and the last right brace; if either is missing or the last
brace does not come after the first, return `null`; otherwise `JSON.parse`
the inclusive slice, with any parse error mapped to `null`. -/
def extractFirstJsonObject (text : String) : Option Json :=
  match idxOf lbrace text.data, lastIdxOf rbrace text.data with
  | some i, some j =>
    if j ≤ i then none
    else jsonParseL ((text.data.drop i).take (j + 1 - i))
  | some _, none => none
  | none, _ => none

-- ===========================================================================
-- Rate limiting (source lines 12–94)
-- ===========================================================================

/-- Per-client rate-limit record (`RateLimitEntry` in the source). -/
structure RateLimitEntry where
  count : Nat
  resetAt : Nat
  hourlyCount : Nat
  hourlyResetAt : Nat

/-- Result of a rate-limit check (`{ allowed: boolean; retryAfter?: number }`). -/
structure RateLimitResult where
  allowed : Bool
  retryAfter : Option Nat

def RATE_LIMIT_PER_MINUTE : Nat := 10
def RATE_LIMIT_PER_HOUR : Nat := 100
def MINUTE_MS : Nat := 60 * 1000
def HOUR_MS : Nat := 60 * 60 * 1000

/-- Window update of `checkRateLimit` (source lines 66–80): if the minute
window has elapsed, reset its count to 1 and extend the window, otherwise
increment; independently the same for the hour window.  The source mutates
the stored entry in place, so this update happens before enforcement and is
not rolled back on denial. -/
def bump (now : Nat) (e : RateLimitEntry) : RateLimitEntry :=
  { count := if e.resetAt < now then 1 else e.count + 1
    resetAt := if e.resetAt < now then now + MINUTE_MS else e.resetAt
    hourlyCount := if e.hourlyResetAt < now then 1 else e.hourlyCount + 1
    hourlyResetAt := if e.hourlyResetAt < now then now + HOUR_MS else e.hourlyResetAt }

/-- Enforcement step of `checkRateLimit` (source lines 82–93), applied to the
already-updated entry: the minute limit is checked first, then the hour
limit; `retryAfter` is `Math.ceil((resetAt - now) / 1000)` of the window that
caused the denial. -/
def enforce (now : Nat) (e : RateLimitEntry) : RateLimitResult :=
  if e.count > RATE_LIMIT_PER_MINUTE then
    { allowed := false, retryAfter := some ((e.resetAt - now + 999) / 1000) }
  else if e.hourlyCount > RATE_LIMIT_PER_HOUR then
    { allowed := false, retryAfter := some ((e.hourlyResetAt - now + 999) / 1000) }
  else { allowed := true, retryAfter := none }

/-- Model of `checkRateLimit` (source lines 42–94) for one client identifier:
given the current time and the stored entry for that identifier (if any),
return the decision and the entry stored afterwards.  A first request
initializes both windows starting now and is always allowed.  The
probabilistic sweep (lines 57–64) only deletes entries whose hourly window
has already expired and never alters the decision for the current request,
so it does not appear in the single-identifier state. -/
def checkRateLimit (now : Nat) (entry? : Option RateLimitEntry) :
    RateLimitResult × RateLimitEntry :=
  match entry? with
  | none =>
    ({ allowed := true, retryAfter := none },
     { count := 1, resetAt := now + MINUTE_MS,
       hourlyCount := 1, hourlyResetAt := now + HOUR_MS })
  | some e => (enforce now (bump now e), bump now e)

/-- Stored entry after `n` checks at times `t 0, …, t (n-1)`, starting from
an unseen identifier. -/
def stateAfter (t : Nat → Nat) : Nat → Option RateLimitEntry
  | 0 => none
  | n + 1 => some (checkRateLimit (t n) (stateAfter t n)).2

/-- Decision of the `(n+1)`-st check (0-indexed) in such a run. -/
def resultAt (t : Nat → Nat) (n : Nat) : RateLimitResult :=
  (checkRateLimit (t n) (stateAfter t n)).1

/-- Stored entry right after the `(n+1)`-st check (0-indexed). -/
def entryAt (t : Nat → Nat) (n : Nat) : RateLimitEntry :=
  (checkRateLimit (t n) (stateAfter t n)).2

-- ===========================================================================
-- Input validation (source lines 100–124)
-- ===========================================================================

def MAX_MESSAGE_LENGTH : Nat := 500
def MAX_REQUEST_SIZE : Nat := 10 * 1024

/-- Result of `validateInput` (`{ valid: boolean; error?: string }`). -/
structure ValidationResult where
  valid : Bool
  error : Option String

/-- The whitelist of modes (source line 118). -/
def validModes : List String :=
  ["Balanced", "Zen", "Dramatic", "Angry", "Copium", "Analyst", "Petty"]

/-- The guard `!message || typeof message !== "string"` (source line 105).
`message` is `undefined` (`none`) or a JSON value from the request body.
Every non-string JSON value fails the `typeof` test, and the empty string is
the one string that is falsy, so the guard holds exactly off nonempty (or
empty: the guard also catches it via falsiness) strings as below. -/
def messageGuardFails (message : Option Json) : Bool :=
  match message with
  | some (Json.str s) => s = ""
  | _ => true

/-- Length of the message once known to be a string (source `message.length`). -/
def msgLength (message : Option Json) : Nat :=
  match message with
  | some (Json.str s) => s.length
  | _ => 0

/-- The test `mode !== undefined && mode !== null` (source line 119). -/
def modePresent (mode : Option Json) : Bool :=
  match mode with
  | none => false
  | some Json.null => false
  | some _ => true

/-- The test `validModes.includes(mode)` (source line 119).  `includes`
compares with strict equality, so a non-string mode is never a member. -/
def modeIncluded (mode : Option Json) : Bool :=
  match mode with
  | some (Json.str m) => validModes.contains m
  | _ => false

/-- Model of `validateInput` (source lines 103–124), mirroring its guard
order.  The second guard (`message.length === 0`) is kept even though the
first guard already rejects the empty string via falsiness. -/
def validateInput (message mode : Option Json) : ValidationResult :=
  if messageGuardFails message then
    { valid := false, error := some "Request must include `message` string in body" }
  else if msgLength message = 0 then
    { valid := false, error := some "Message cannot be empty" }
  else if msgLength message > MAX_MESSAGE_LENGTH then
    { valid := false
      error := some ("Message exceeds maximum length of " ++
        toString MAX_MESSAGE_LENGTH ++ " characters") }
  else if modePresent mode && !modeIncluded mode then
    { valid := false
      error := some ("Invalid mode. Must be one of: " ++ String.intercalate ", " validModes) }
  else { valid := true, error := none }

-- ===========================================================================
-- Output coercion and schema validation (source lines 187–211 and 304–344)
-- ===========================================================================

/-- The seven required field names (source lines 321–329, identical to the
`required` list of `OUTPUT_SCHEMA`). -/
def requiredKeys : List String :=
  ["emotional_read", "validation", "tactical_breakdown", "reframing",
   "humor", "fan_ritual", "closing"]

/-- Property lookup on a parsed JSON object.  `JSON.parse` assigns duplicate
keys in order, the last occurrence winning, which is what a left fold gives. -/
def lookupLast (fields : List (String × Json)) (k : String) : Option Json :=
  fields.foldl (fun acc kv => if kv.1 = k then some kv.2 else acc) none

/-- JavaScript property access `parsed[k]` for the values `JSON.parse` can
produce: object properties by key, nothing for the seven schema keys on an
array, nothing on primitives. -/
def jsGet (v : Json) (k : String) : Option Json :=
  match v with
  | Json.obj fields => lookupLast fields k
  | _ => none

/-- The fallback record substituted when parsing fails (source lines 309–317). -/
def fallbackRecord : Json :=
  Json.obj [("emotional_read", Json.str "frustration"), ("validation", Json.str ""),
            ("tactical_breakdown", Json.str ""), ("reframing", Json.str ""),
            ("humor", Json.str ""), ("fan_ritual", Json.str ""),
            ("closing", Json.str "")]

/-- The keep condition of `if (!parsed || typeof parsed !== "object")`
(source line 307), negated: among values `JSON.parse` can produce, exactly
arrays and objects are truthy with `typeof` equal to `"object"` (`null` is
falsy, and booleans, numbers and strings have other `typeof` results). -/
def keepsParsed : Json → Bool
  | Json.arr _ => true
  | Json.obj _ => true
  | _ => false

/-- Source lines 306–318: a `null` extraction result or a non-object parsed
value is replaced by the fallback record. -/
def normalizeParsed (parsed : Option Json) : Json :=
  match parsed with
  | some v => if keepsParsed v then v else fallbackRecord
  | none => fallbackRecord

/-- The coercion loop (source lines 330–333): for each required key copy the
candidate's value exactly when it is a string, else the empty string.  The
result is typed `Record<string, string>` in the source, hence
`List (String × String)` here. -/
def coerceFields (parsed : Json) : List (String × String) :=
  requiredKeys.map (fun k =>
    (k, match jsGet parsed k with
        | some (Json.str s) => s
        | _ => ""))

/-- The coerced record viewed as the JSON object that is serialized in the
HTTP response and handed to AJV. -/
def coercedToJson (r : List (String × String)) : Json :=
  Json.obj (r.map (fun kv => (kv.1, Json.str kv.2)))

/-- Lookup in the coerced record. -/
def lookupPairs (l : List (String × String)) (k : String) : Option String :=
  l.foldl (fun acc kv => if kv.1 = k then some kv.2 else acc) none

/-- Model of the compiled AJV validator for `OUTPUT_SCHEMA` (source lines
187–211): the value must be an object, every one of the seven required keys
must be present with a string value, and no additional properties are
allowed. -/
def validateOutput (v : Json) : Bool :=
  match v with
  | Json.obj fields =>
    (requiredKeys.all (fun k =>
      match lookupLast fields k with
      | some (Json.str _) => true
      | _ => false)) &&
    (fields.all (fun kv => requiredKeys.contains kv.1))
  | _ => false

-- ===========================================================================
-- Upstream client (source lines 225–252)
-- ===========================================================================

/-- The error message built for a non-success upstream status (source line
247): `Model API error: ${resp.status} ${txt}`. -/
def modelApiErrorMsg (status : Nat) (txt : String) : String :=
  "Model API error: " ++ toString status ++ " " ++ txt

/-- Model of `callModel` (source lines 225–252).  The fetch outcome is an
oracle argument: `Except.error m` is a transport failure with message `m`,
`Except.ok (ok, status, bodyText, content)` is a settled HTTP response,
where `content` stands for the already-extracted completion text
`String(json?.choices?.[0]?.message?.content ?? json?.choices?.[0]?.text ?? "")`.
A missing credential throws before any request is made. -/
def callModel (key : Option String)
    (fetchOutcome : Except String (Bool × Nat × String × String)) :
    Except String String :=
  match key with
  | none => Except.error "Missing OPENAI_API_KEY in environment"
  | some _ =>
    match fetchOutcome with
    | Except.error m => Except.error m
    | Except.ok (ok, status, bodyText, content) =>
      if ok then Except.ok content
      else Except.error (modelApiErrorMsg status bodyText)

-- ===========================================================================
-- Main handler (source lines 258–354)
-- ===========================================================================

/-- JavaScript whitespace accepted by `parseInt` before the number. -/
def isJsWsPi (c : Char) : Bool :=
  c = ' ' || c = Char.ofNat 9 || c = Char.ofNat 10 || c = Char.ofNat 13 ||
  c = Char.ofNat 11 || c = Char.ofNat 12 || c = Char.ofNat 0xa0

/-- Drop leading whitespace, as `parseInt` does. -/
def dropJsWs : List Char → List Char
  | [] => []
  | c :: cs => if isJsWsPi c then dropJsWs cs else c :: cs

/-- Hexadecimal digit test. -/
def isHexDigitCh (c : Char) : Bool := (hexDigitVal c).isSome

/-- Split off the maximal prefix of hexadecimal digits. -/
def spanHex : List Char → (List Char × List Char)
  | [] => ([], [])
  | c :: cs =>
    if isHexDigitCh c then
      let p := spanHex cs
      (c :: p.1, p.2)
    else ([], c :: cs)

/-- Numeric value of a list of decimal digits. -/
def decVal (ds : List Char) : Nat :=
  ds.foldl (fun a c => a * 10 + (c.toNat - '0'.toNat)) 0

/-- Numeric value of a list of hexadecimal digits. -/
def hexVal (ds : List Char) : Nat :=
  ds.foldl (fun a c => a * 16 + ((hexDigitVal c).getD 0)) 0

/-- Model of JavaScript `parseInt(s)` with no radix argument: skip leading
whitespace, take an optional sign, then either a `0x`/`0X` hexadecimal
literal or a maximal run of decimal digits; `none` models `NaN`. -/
def parseIntJs (s : String) : Option Int :=
  let cs := dropJsWs s.data
  let sp : Bool × List Char :=
    match cs with
    | '-' :: r => (true, r)
    | '+' :: r => (false, r)
    | r => (false, r)
  let signed : Nat → Int := fun n => if sp.1 then -(n : Int) else (n : Int)
  match sp.2 with
  | '0' :: x :: r =>
    if x = 'x' ∨ x = 'X' then
      let p := spanHex r
      if p.1 = [] then none else some (signed (hexVal p.1))
    else
      let p := spanDigits ('0' :: x :: r)
      some (signed (decVal p.1))
  | rest =>
    let p := spanDigits rest
    if p.1 = [] then none else some (signed (decVal p.1))

/-- The request-size guard (source lines 263–267):
`contentLength && parseInt(contentLength) > MAX_REQUEST_SIZE`.  An absent
header (or the empty string, which is falsy) skips the check, and a `NaN`
parse also skips it because `NaN > MAX_REQUEST_SIZE` is false. -/
def sizeExceeded (contentLength : Option String) : Bool :=
  match contentLength with
  | none => false
  | some s =>
    if s = "" then false
    else
      match parseIntJs s with
      | some n => decide ((MAX_REQUEST_SIZE : Int) < n)
      | none => false

/-- An HTTP response produced by the handler: status code, JSON body, and
the `Retry-After` header when one is set. -/
structure ApiResponse where
  status : Nat
  body : Json
  retryAfterHeader : Option String

/-- The `retryAfter` field of the 429 body.  `JSON.stringify` drops a key
whose value is `undefined`, so an absent value contributes no field. -/
def retryAfterField (r : Option Nat) : List (String × Json) :=
  match r with
  | some n => [("retryAfter", Json.num (toString n))]
  | none => []

/-- The `Retry-After` header value (source line 274):
`rateLimitCheck.retryAfter?.toString() || "60"`. -/
def retryAfterHeaderVal (r : Option Nat) : String :=
  match r with
  | some n => toString n
  | none => "60"

/-- The `error` field of the 400 body; an `undefined` message would be
dropped by `JSON.stringify`. -/
def errField (e : Option String) : List (String × Json) :=
  match e with
  | some s => [("error", Json.str s)]
  | none => []

/-- Model of the exported `handler` (source lines 258–354) for one request.
Arguments: the HTTP method, the `content-length` header, the current time,
the rate-limit entry stored for the requesting client identifier, the parsed
request body (`req.body`, with both `undefined` and `null` represented by
`Json.null`, which destructures to no fields exactly as `req.body ?? {}`
does), and the outcome of the single upstream call (`Except.error` is a
thrown exception reaching the `catch`, whose `err.message` is never nullish
here so `err?.message ?? "server error"` is just the message).  Returns the
response and the entry stored for that identifier afterwards.  Client-IP
derivation (`getClientIP`) only chooses the store key and is outside this
single-identifier model; `console` logging has no observable effect. -/
def handler (method : String) (contentLength : Option String) (now : Nat)
    (store : Option RateLimitEntry) (body : Json)
    (upstream : Except String String) : ApiResponse × Option RateLimitEntry :=
  if method ≠ "POST" then
    ({ status := 405, body := Json.obj [("error", Json.str "Method not allowed")],
       retryAfterHeader := none }, store)
  else if sizeExceeded contentLength = true then
    ({ status := 413, body := Json.obj [("error", Json.str "Request too large")],
       retryAfterHeader := none }, store)
  else if (checkRateLimit now store).1.allowed = false then
    ({ status := 429
       body := Json.obj (("error", Json.str "Rate limit exceeded") ::
         retryAfterField (checkRateLimit now store).1.retryAfter)
       retryAfterHeader := some (retryAfterHeaderVal (checkRateLimit now store).1.retryAfter) },
     some (checkRateLimit now store).2)
  else if (validateInput (jsGet body "message") (jsGet body "mode")).valid = false then
    ({ status := 400
       body := Json.obj (errField (validateInput (jsGet body "message") (jsGet body "mode")).error)
       retryAfterHeader := none },
     some (checkRateLimit now store).2)
  else
    match upstream with
    | Except.error m =>
      ({ status := 500, body := Json.obj [("error", Json.str m)],
         retryAfterHeader := none },
       some (checkRateLimit now store).2)
    | Except.ok raw =>
      if validateOutput (coercedToJson (coerceFields (normalizeParsed
          (extractFirstJsonObject raw)))) = true then
        ({ status := 200
           body := coercedToJson (coerceFields (normalizeParsed (extractFirstJsonObject raw)))
           retryAfterHeader := none },
         some (checkRateLimit now store).2)
      else
        ({ status := 500
           body := Json.obj [("error", Json.str "Model produced output that failed schema validation"),
                             ("details", Json.null),
                             ("output", coercedToJson (coerceFields (normalizeParsed
                               (extractFirstJsonObject raw))))]
           retryAfterHeader := none },
         some (checkRateLimit now store).2)

-- ===========================================================================
-- Concrete inputs used by witnesses and counterexamples
-- ===========================================================================

/-- Times for the C1 witness: eleven checks all at time 0. -/
def tC1 : Nat → Nat := fun _ => 0

/-- A stored entry with both windows at their cap, used as the C8 witness. -/
def eC8 : RateLimitEntry :=
  { count := 10, resetAt := 100, hourlyCount := 10, hourlyResetAt := 50000 }

/-- Times for the C6 witness: checks in bursts of ten, one burst at the
start of each successive 61-second window. -/
def tC6 : Nat → Nat := fun i => (i / 10) * 61000

/-- Key test on a JSON object body, used to recognise the diagnostic fields
that only the post-coercion schema-failure response carries. -/
def jsonObjHasKey (v : Json) (k : String) : Bool :=
  match v with
  | Json.obj fields => fields.any (fun kv => kv.1 == k)
  | _ => false

/-- A candidate with one string field and one numeric field, for the C3
witness. -/
def candC3 : Option Json :=
  some (Json.obj [("emotional_read", Json.str "joy"), ("humor", Json.num "5")])

/-- The request body used by the C4 and C5 witnesses. -/
def bodyTL : Json := Json.obj [("message", Json.str "terrible loss")]

/-- The upstream outcome of the C5 counterexample: a settled 502 response
whose body text is `bad gateway`. -/
def c5resp : ApiResponse :=
  (handler "POST" none 0 none bodyTL
    (callModel (some "sk-test") (Except.ok (false, 502, "bad gateway", "")))).1

-- ===========================================================================
-- Claim C2: extraction
-- ===========================================================================

lemma idxOf_eq_none_of_not_mem (c : Char) (cs : List Char) (h : c ∉ cs) :
    idxOf c cs = none := by
  induction cs with
  | nil => rfl
  | cons x xs ih =>
    simp only [List.mem_cons, not_or] at h
    have hxc : ¬ (x = c) := fun hx => h.1 (Eq.symm hx)
    simp [idxOf, hxc, ih h.2]

/-- C2: `extractFirstJsonObject` is total (it is a Lean function into
`Option`, the `try/catch` being the `none` results of `jsonParseL`); when
the text has a first left brace at `i` and a last right brace at `j > i` and
the inclusive span between them parses as JSON, extraction returns exactly
that parsed object; and when either brace is missing, or the last right
brace does not come after the first left brace (mismatched braces),
extraction returns `none`. -/
theorem extractFirstJsonObject_spec (text : String) :
    (∀ i j v, idxOf lbrace text.data = some i → lastIdxOf rbrace text.data = some j →
      i < j → jsonParseL ((text.data.drop i).take (j + 1 - i)) = some v →
      extractFirstJsonObject text = some v) ∧
    ((lbrace ∉ text.data ∨ rbrace ∉ text.data ∨
      (∃ i j, idxOf lbrace text.data = some i ∧ lastIdxOf rbrace text.data = some j ∧ j ≤ i)) →
      extractFirstJsonObject text = none) := by
  constructor
  · intro i j v hi hj hij hp
    unfold extractFirstJsonObject
    rw [hi, hj]
    simp [Nat.not_le.mpr hij, hp]
  · intro h
    unfold extractFirstJsonObject
    rcases h with h | h | ⟨i, j, hi, hj, hij⟩
    · rw [idxOf_eq_none_of_not_mem _ _ h]
    · have hr : idxOf rbrace text.data.reverse = none :=
        idxOf_eq_none_of_not_mem _ _ (by simpa using h)
      have hln : lastIdxOf rbrace text.data = none := by
        simp [lastIdxOf, hr]
      rw [hln]
      cases idxOf lbrace text.data <;> rfl
    · rw [hi, hj]
      simp [hij]

/-- Witness for C2 on the text `x{"a":1}y` (built from characters to keep
braces out of string literals): extraction returns the object with the one
field `a` holding the numeric literal `1`. -/
theorem extractFirstJsonObject_spec_witness :
    extractFirstJsonObject (String.mk ['x', lbrace, '"', 'a', '"', ':', '1', rbrace, 'y']) =
      some (Json.obj [("a", Json.num "1")]) :=
  (extractFirstJsonObject_spec _).1 1 7 _ rfl rfl (by decide) rfl

-- ===========================================================================
-- Claims C1, C6, C8: rate limiter
-- ===========================================================================

lemma stateAfter_minute (t : Nat → Nat) :
    ∀ n, (∀ i, i < n + 1 → t i ≤ t 0 + MINUTE_MS) →
      stateAfter t (n + 1) =
        some { count := n + 1, resetAt := t 0 + MINUTE_MS,
               hourlyCount := n + 1, hourlyResetAt := t 0 + HOUR_MS } := by
  intro n
  induction n with
  | zero =>
    intro _
    simp [stateAfter, checkRateLimit]
  | succ k ih =>
    intro h
    have hk := ih (fun i hi => h i (Nat.lt_succ_of_lt hi))
    have h1 : ¬ (t 0 + MINUTE_MS < t (k + 1)) :=
      Nat.not_lt.mpr (h (k + 1) (Nat.lt_succ_self _))
    have h2 : ¬ (t 0 + HOUR_MS < t (k + 1)) := by
      have := h (k + 1) (Nat.lt_succ_self _)
      simp only [MINUTE_MS, HOUR_MS] at *
      omega
    rw [show stateAfter t (k + 1 + 1) =
          some (checkRateLimit (t (k + 1)) (stateAfter t (k + 1))).2 from rfl, hk]
    simp [checkRateLimit, bump, h1, h2]

/-- C1: starting from an unseen identifier, 10 consecutive checks all made
within one minute of the first are all allowed, and an 11th check within
that same minute is denied with a positive `retryAfter`. -/
theorem rateLimit_minute_window (t : Nat → Nat)
    (_hlo : ∀ i, i ≤ 10 → t 0 ≤ t i)
    (hhi : ∀ i, i ≤ 10 → t i < t 0 + MINUTE_MS) :
    (∀ i, i ≤ 9 → (resultAt t i).allowed = true) ∧
    (resultAt t 10).allowed = false ∧
    (∃ r, (resultAt t 10).retryAfter = some r ∧ 0 < r) := by
  refine ⟨?_, ?_⟩
  · intro i hi
    match i, hi with
    | 0, _ => rfl
    | (k + 1), hi =>
      have hs := stateAfter_minute t k (fun j hj => Nat.le_of_lt (hhi j (by omega)))
      have h1 : ¬ (t 0 + MINUTE_MS < t (k + 1)) :=
        Nat.not_lt.mpr (Nat.le_of_lt (hhi (k + 1) (by omega)))
      have h2 : ¬ (t 0 + HOUR_MS < t (k + 1)) := by
        have := hhi (k + 1) (by omega)
        simp only [MINUTE_MS, HOUR_MS] at *
        omega
      have hc1 : ¬ (k + 1 + 1 > RATE_LIMIT_PER_MINUTE) := by
        simp only [RATE_LIMIT_PER_MINUTE, gt_iff_lt]
        omega
      have hc2 : ¬ (k + 1 + 1 > RATE_LIMIT_PER_HOUR) := by
        simp only [RATE_LIMIT_PER_HOUR, gt_iff_lt]
        omega
      unfold resultAt
      rw [hs]
      simp [checkRateLimit, bump, enforce, h1, h2, hc1, hc2]
  · have hs := stateAfter_minute t 9 (fun j hj => Nat.le_of_lt (hhi j (by omega)))
    have h1 : ¬ (t 0 + MINUTE_MS < t 10) := Nat.not_lt.mpr (Nat.le_of_lt (hhi 10 (by omega)))
    have h2 : ¬ (t 0 + HOUR_MS < t 10) := by
      have := hhi 10 (by omega)
      simp only [MINUTE_MS, HOUR_MS] at *
      omega
    have hc1 : (9 + 1 + 1 > RATE_LIMIT_PER_MINUTE) := by
      simp only [RATE_LIMIT_PER_MINUTE, gt_iff_lt]
      omega
    have hres : resultAt t 10 =
        { allowed := false, retryAfter := some ((t 0 + MINUTE_MS - t 10 + 999) / 1000) } := by
      unfold resultAt
      rw [show (10 : Nat) = 9 + 1 from rfl, hs]
      simp [checkRateLimit, bump, enforce, h1, h2, hc1]
    refine ⟨by rw [hres], _, by rw [hres], ?_⟩
    have ht := hhi 10 (by omega)
    have h1000 : 1000 ≤ t 0 + MINUTE_MS - t 10 + 999 := by
      simp only [MINUTE_MS] at *
      omega
    have := (Nat.le_div_iff_mul_le (by norm_num : (0 : Nat) < 1000)).mpr
      (by omega : 1 * 1000 ≤ t 0 + MINUTE_MS - t 10 + 999)
    omega

/-- Witness for C1: eleven checks all at time 0 — the first (and each of the
first ten) is allowed, the eleventh is denied. -/
theorem rateLimit_minute_window_witness :
    (resultAt tC1 0).allowed = true ∧ (resultAt tC1 10).allowed = false := by
  have h := rateLimit_minute_window tC1 (fun i _ => Nat.le_refl 0)
    (fun i _ => by simp [tC1, MINUTE_MS])
  exact ⟨h.1 0 (by omega), h.2.1⟩

/-- C8: on a check for an already-seen identifier whose windows have not
elapsed, the stored counters are the old ones plus one — the increment
happens before the limit test, and a denial does not roll it back (the
entry returned, and stored, after a denied check still counts the denied
attempt) — and the decision tests the incremented counters. -/
theorem rateLimit_counts_denied (now : Nat) (e : RateLimitEntry)
    (h1 : now ≤ e.resetAt) (h2 : now ≤ e.hourlyResetAt) :
    ((checkRateLimit now (some e)).2.count = e.count + 1 ∧
     (checkRateLimit now (some e)).2.hourlyCount = e.hourlyCount + 1) ∧
    ((checkRateLimit now (some e)).1.allowed = false ↔
      (RATE_LIMIT_PER_MINUTE < e.count + 1 ∨ RATE_LIMIT_PER_HOUR < e.hourlyCount + 1)) := by
  have hn1 : ¬ (e.resetAt < now) := Nat.not_lt.mpr h1
  have hn2 : ¬ (e.hourlyResetAt < now) := Nat.not_lt.mpr h2
  refine ⟨⟨by simp [checkRateLimit, bump, hn1, hn2], by simp [checkRateLimit, bump, hn1, hn2]⟩, ?_⟩
  by_cases hc : RATE_LIMIT_PER_MINUTE < e.count + 1
  · simp [checkRateLimit, bump, enforce, hn1, hn2, hc]
  · by_cases hh : RATE_LIMIT_PER_HOUR < e.hourlyCount + 1 <;>
      simp [checkRateLimit, bump, enforce, hn1, hn2, hc, hh]

/-- Witness for C8: at time 20 with a stored entry of count 10 in a live
minute window, the check is denied yet both stored counters show 11. -/
theorem rateLimit_counts_denied_witness :
    (checkRateLimit 20 (some eC8)).2.count = 11 ∧
    (checkRateLimit 20 (some eC8)).2.hourlyCount = 11 ∧
    (checkRateLimit 20 (some eC8)).1.allowed = false := by
  have h := rateLimit_counts_denied 20 eC8 (by norm_num [eC8]) (by norm_num [eC8])
  exact ⟨h.1.1, h.1.2, h.2.mpr (Or.inl (by norm_num [RATE_LIMIT_PER_MINUTE, eC8]))⟩

lemma stateAfter_hour (t : Nat → Nat) :
    ∀ n, (∀ i, i < n + 1 → t i ≤ t 0 + HOUR_MS) →
      ∃ c r, stateAfter t (n + 1) =
        some { count := c, resetAt := r, hourlyCount := n + 1,
               hourlyResetAt := t 0 + HOUR_MS } := by
  intro n
  induction n with
  | zero =>
    intro _
    exact ⟨1, t 0 + MINUTE_MS, by simp [stateAfter, checkRateLimit]⟩
  | succ k ih =>
    intro h
    obtain ⟨c, r, hk⟩ := ih (fun i hi => h i (Nat.lt_succ_of_lt hi))
    have h2 : ¬ (t 0 + HOUR_MS < t (k + 1)) :=
      Nat.not_lt.mpr (h (k + 1) (Nat.lt_succ_self _))
    rw [show stateAfter t (k + 1 + 1) =
          some (checkRateLimit (t (k + 1)) (stateAfter t (k + 1))).2 from rfl, hk]
    by_cases h1 : r < t (k + 1)
    · exact ⟨1, t (k + 1) + MINUTE_MS, by simp [checkRateLimit, bump, h1, h2]⟩
    · exact ⟨c + 1, r, by simp [checkRateLimit, bump, h1, h2]⟩

lemma resultAt_eq_enforce (t : Nat → Nat) (n : Nat) :
    resultAt t n = enforce (t n) (entryAt t n) := by
  unfold resultAt entryAt
  cases hs : stateAfter t n with
  | none => simp [checkRateLimit, enforce, RATE_LIMIT_PER_MINUTE, RATE_LIMIT_PER_HOUR]
  | some e => simp [checkRateLimit]

lemma entryAt_hourly (t : Nat → Nat) (n : Nat)
    (h : ∀ i, i < n + 1 → t i ≤ t 0 + HOUR_MS) :
    (entryAt t n).hourlyCount = n + 1 ∧ (entryAt t n).hourlyResetAt = t 0 + HOUR_MS := by
  cases n with
  | zero => exact ⟨rfl, rfl⟩
  | succ k =>
    obtain ⟨c, r, hk⟩ := stateAfter_hour t k (fun i hi => h i (Nat.lt_succ_of_lt hi))
    have h2 : ¬ (t 0 + HOUR_MS < t (k + 1)) :=
      Nat.not_lt.mpr (h (k + 1) (Nat.lt_succ_self _))
    unfold entryAt
    rw [hk]
    exact ⟨by simp [checkRateLimit, bump, h2], by simp [checkRateLimit, bump, h2]⟩

/-- C6: starting from an unseen identifier, 101 checks within one hour of
the first, spaced so that the post-increment minute count never exceeds its
cap, give 100 allowed checks and a 101st denied one whose `retryAfter` is
the ceiling in seconds of the time remaining in the hourly window; and in
general a denial reports the minute window first — `retryAfter` is computed
from the minute window exactly when its incremented count is over its cap,
and from the hour window otherwise. -/
theorem rateLimit_hourly_window (t : Nat → Nat)
    (_hlo : ∀ i, i ≤ 100 → t 0 ≤ t i)
    (hhi : ∀ i, i ≤ 100 → t i < t 0 + HOUR_MS)
    (hmin : ∀ i, i ≤ 100 → (entryAt t i).count ≤ RATE_LIMIT_PER_MINUTE) :
    ((∀ i, i ≤ 99 → (resultAt t i).allowed = true) ∧
     (resultAt t 100).allowed = false ∧
     (resultAt t 100).retryAfter = some ((t 0 + HOUR_MS - t 100 + 999) / 1000)) ∧
    (∀ (now : Nat) (s : Option RateLimitEntry),
      (checkRateLimit now s).1.allowed = false →
      ((RATE_LIMIT_PER_MINUTE < (checkRateLimit now s).2.count ∧
        (checkRateLimit now s).1.retryAfter =
          some (((checkRateLimit now s).2.resetAt - now + 999) / 1000)) ∨
       ((checkRateLimit now s).2.count ≤ RATE_LIMIT_PER_MINUTE ∧
        RATE_LIMIT_PER_HOUR < (checkRateLimit now s).2.hourlyCount ∧
        (checkRateLimit now s).1.retryAfter =
          some (((checkRateLimit now s).2.hourlyResetAt - now + 999) / 1000)))) := by
  constructor
  · have hwin : ∀ n, n ≤ 100 → ∀ i, i < n + 1 → t i ≤ t 0 + HOUR_MS :=
      fun n hn i hi => Nat.le_of_lt (hhi i (by omega))
    constructor
    · intro i hi
      have hh := (entryAt_hourly t i (hwin i (by omega))).1
      have hco : ¬ ((entryAt t i).count > RATE_LIMIT_PER_MINUTE) :=
        Nat.not_lt.mpr (hmin i (by omega))
      have hnh : ¬ ((entryAt t i).hourlyCount > RATE_LIMIT_PER_HOUR) := by
        rw [hh]
        simp only [RATE_LIMIT_PER_HOUR, gt_iff_lt]
        omega
      rw [resultAt_eq_enforce]
      simp [enforce, hco, hnh]
    · have hh := entryAt_hourly t 100 (hwin 100 (by omega))
      have hco : ¬ ((entryAt t 100).count > RATE_LIMIT_PER_MINUTE) :=
        Nat.not_lt.mpr (hmin 100 (by omega))
      have hnh : (entryAt t 100).hourlyCount > RATE_LIMIT_PER_HOUR := by
        rw [hh.1]
        simp [RATE_LIMIT_PER_HOUR]
      rw [resultAt_eq_enforce]
      constructor
      · simp [enforce, hco, hnh]
      · simp [enforce, hco, hnh, hh.2]
  · intro now s hdenied
    cases s with
    | none => simp [checkRateLimit] at hdenied
    | some e =>
      simp only [checkRateLimit] at hdenied ⊢
      by_cases hc : (bump now e).count > RATE_LIMIT_PER_MINUTE
      · exact Or.inl ⟨hc, by simp [enforce, hc]⟩
      · by_cases hh : (bump now e).hourlyCount > RATE_LIMIT_PER_HOUR
        · exact Or.inr ⟨Nat.le_of_not_lt hc, hh, by simp [enforce, hc, hh]⟩
        · exfalso
          simp [enforce, hc, hh] at hdenied

/-- Witness for C6: bursts of ten checks at the start of eleven successive
61-second windows — the 101st check (index 100, at millisecond 610000) is
denied with `retryAfter` 2990, the ceiling of the 2989001 ms left in the
hourly window. -/
theorem rateLimit_hourly_window_witness :
    (resultAt tC6 100).allowed = false ∧ (resultAt tC6 100).retryAfter = some 2990 := by
  have h := rateLimit_hourly_window tC6 (by decide) (by decide) (by decide)
  refine ⟨h.1.2.1, ?_⟩
  rw [h.1.2.2]
  norm_num [tC6, HOUR_MS]

-- ===========================================================================
-- Claim C7: input validation
-- ===========================================================================

lemma modeCheck_iff (mode : Option Json) :
    (modePresent mode && !modeIncluded mode) = true ↔
    (mode ≠ none ∧ mode ≠ some Json.null ∧
     ¬ ∃ m, mode = some (Json.str m) ∧ m ∈ validModes) := by
  cases mode with
  | none => simp [modePresent]
  | some v =>
    cases v with
    | null => simp [modePresent]
    | bool b => simp [modePresent, modeIncluded]
    | num n => simp [modePresent, modeIncluded]
    | str m => simp [modePresent, modeIncluded]
    | arr l => simp [modePresent, modeIncluded]
    | obj l => simp [modePresent, modeIncluded]

/-- C7: `validateInput` is a pure function of its two arguments; it reports
invalid exactly when the message is absent, not a string, empty, or longer
than 500 characters, or when the mode is present (neither `undefined` nor
`null`) and not one of the seven whitelisted mode strings; and every
message of length 1–500 with an absent or whitelisted mode passes. -/
theorem validateInput_spec (message mode : Option Json) :
    ((validateInput message mode).valid = false ↔
      (message = none ∨
       (∃ v, message = some v ∧ ∀ s, v ≠ Json.str s) ∨
       (∃ s, message = some (Json.str s) ∧ (s.length = 0 ∨ MAX_MESSAGE_LENGTH < s.length)) ∨
       (mode ≠ none ∧ mode ≠ some Json.null ∧
        ¬ ∃ m, mode = some (Json.str m) ∧ m ∈ validModes))) ∧
    (∀ s, message = some (Json.str s) → 1 ≤ s.length → s.length ≤ MAX_MESSAGE_LENGTH →
      (mode = none ∨ mode = some Json.null ∨ (∃ m, mode = some (Json.str m) ∧ m ∈ validModes)) →
      (validateInput message mode).valid = true) := by
  constructor
  · cases message with
    | none => simp [validateInput, messageGuardFails]
    | some v =>
      cases v with
      | null => simp [validateInput, messageGuardFails]
      | bool b => simp [validateInput, messageGuardFails]
      | num n => simp [validateInput, messageGuardFails]
      | arr l => simp [validateInput, messageGuardFails]
      | obj l => simp [validateInput, messageGuardFails]
      | str s =>
        by_cases hs : s = ""
        · subst hs
          simp [validateInput, messageGuardFails]
        · have hs0 : ¬ (s.length = 0) := by
            intro h
            apply hs
            cases s with
            | mk l =>
              rw [String.length_mk] at h
              cases l with
              | nil => rfl
              | cons a as => simp at h
          by_cases hl : s.length > MAX_MESSAGE_LENGTH
          · have hv : (validateInput (some (Json.str s)) mode).valid = false := by
              simp [validateInput, messageGuardFails, hs, msgLength, hs0, hl]
            rw [hv]
            exact iff_of_true rfl (Or.inr (Or.inr (Or.inl ⟨s, rfl, Or.inr hl⟩)))
          · by_cases hm : (modePresent mode && !modeIncluded mode) = true
            · have hv : (validateInput (some (Json.str s)) mode).valid = false := by
                simp [validateInput, messageGuardFails, hs, msgLength, hs0, hl, hm]
              rw [hv]
              exact iff_of_true rfl (Or.inr (Or.inr (Or.inr ((modeCheck_iff mode).mp hm))))
            · have hv : (validateInput (some (Json.str s)) mode).valid = true := by
                simp [validateInput, messageGuardFails, hs, msgLength, hs0, hl, hm]
              rw [hv]
              refine iff_of_false (by simp) ?_
              rintro (h | ⟨v, hveq, hne⟩ | ⟨s', hs', hlen⟩ | h4)
              · exact Option.noConfusion h
              · injection hveq with h'
                subst h'
                exact hne s rfl
              · injection hs' with h'
                injection h' with h''
                subst h''
                rcases hlen with h0 | hM
                · exact hs0 h0
                · exact hl hM
              · exact hm ((modeCheck_iff mode).mpr h4)
  · intro s hmsg h1 h2 hmode
    subst hmsg
    have hs : ¬ (s = "") := by
      intro h
      subst h
      simp at h1
    have hs0 : ¬ (s.length = 0) := by omega
    have hl : ¬ (s.length > MAX_MESSAGE_LENGTH) := Nat.not_lt.mpr h2
    have hm : ¬ ((modePresent mode && !modeIncluded mode) = true) := by
      rw [modeCheck_iff]
      rintro ⟨ha, hb, hc⟩
      rcases hmode with rfl | rfl | ⟨m, rfl, hmem⟩
      · exact ha rfl
      · exact hb rfl
      · exact hc ⟨m, rfl, hmem⟩
    simp [validateInput, messageGuardFails, hs, msgLength, hs0, hl, hm]

/-- Witness for C7: the two-character message `hi` with mode `Zen` passes
validation. -/
theorem validateInput_spec_witness :
    (validateInput (some (Json.str "hi")) (some (Json.str "Zen"))).valid = true :=
  (validateInput_spec _ _).2 "hi" rfl (by decide) (by decide)
    (Or.inr (Or.inr ⟨"Zen", rfl, by simp [validModes]⟩))

-- ===========================================================================
-- Claims C3 and C9: coercion and schema validation
-- ===========================================================================

lemma lookupPairs_coerce (f : String → String) (k : String) (hk : k ∈ requiredKeys) :
    lookupPairs (requiredKeys.map (fun k' => (k', f k'))) k = some (f k) := by
  simp only [requiredKeys, List.mem_cons, List.not_mem_nil, or_false] at hk
  rcases hk with rfl | rfl | rfl | rfl | rfl | rfl | rfl <;> rfl

/-- C3: coercion is total and shape-preserving.  For every candidate (the
extraction result, possibly `none`), the coerced record consists of exactly
the seven required keys in order, each holding a string (its type is the
source's `Record<string, string>`); when the candidate is an object, a key
present with a string value is copied unchanged and a key present with a
non-string value becomes the empty string; an array candidate (also kept by
the `typeof` test) yields empty strings throughout. -/
theorem coercion_shape (cand : Option Json) :
    ((coerceFields (normalizeParsed cand)).map Prod.fst = requiredKeys) ∧
    (∀ fields, cand = some (Json.obj fields) → ∀ k, k ∈ requiredKeys →
      ((∀ s, lookupLast fields k = some (Json.str s) →
          lookupPairs (coerceFields (normalizeParsed cand)) k = some s) ∧
       (∀ v, lookupLast fields k = some v → (∀ s, v ≠ Json.str s) →
          lookupPairs (coerceFields (normalizeParsed cand)) k = some ""))) ∧
    (∀ xs, cand = some (Json.arr xs) → ∀ k, k ∈ requiredKeys →
      lookupPairs (coerceFields (normalizeParsed cand)) k = some "") := by
  refine ⟨rfl, ?_, ?_⟩
  · rintro fields rfl k hk
    have h2 := lookupPairs_coerce
      (fun k' => match jsGet (Json.obj fields) k' with
                 | some (Json.str s') => s'
                 | _ => "") k hk
    constructor
    · intro s hl
      refine h2.trans (congrArg some ?_)
      simp [jsGet, hl]
    · intro v hl hne
      refine h2.trans (congrArg some ?_)
      cases v with
      | str s' => exact absurd rfl (hne s')
      | null => simp [jsGet, hl]
      | bool b => simp [jsGet, hl]
      | num n => simp [jsGet, hl]
      | arr l => simp [jsGet, hl]
      | obj l => simp [jsGet, hl]
  · rintro xs rfl k hk
    have h2 := lookupPairs_coerce
      (fun k' => match jsGet (Json.arr xs) k' with
                 | some (Json.str s') => s'
                 | _ => "") k hk
    exact h2.trans rfl

/-- Witness for C3: the string field is copied, the numeric field becomes
the empty string. -/
theorem coercion_shape_witness :
    lookupPairs (coerceFields (normalizeParsed candC3)) "emotional_read" = some "joy" ∧
    lookupPairs (coerceFields (normalizeParsed candC3)) "humor" = some "" := by
  have h := (coercion_shape candC3).2.1
    [("emotional_read", Json.str "joy"), ("humor", Json.num "5")] rfl
  exact ⟨(h "emotional_read" (by decide)).1 "joy" rfl,
         (h "humor" (by decide)).2 (Json.num "5") rfl (fun s h' => Json.noConfusion h')⟩

lemma validateOutput_coerce (p : Json) :
    validateOutput (coercedToJson (coerceFields p)) = true := rfl

/-- C9: for every candidate, the coerced record satisfies the strict output
schema (exactly the seven required string-typed keys, no additional
properties), so the post-coercion schema-failure branch is unreachable: no
response the handler can produce carries its distinguishing `details`
diagnostic field. -/
theorem coerced_always_passes_schema :
    (∀ cand : Option Json,
      validateOutput (coercedToJson (coerceFields (normalizeParsed cand))) = true) ∧
    (∀ (method : String) (contentLength : Option String) (now : Nat)
       (store : Option RateLimitEntry) (body : Json) (upstream : Except String String),
      jsonObjHasKey (handler method contentLength now store body upstream).1.body "details"
        = false) := by
  constructor
  · intro cand
    exact validateOutput_coerce (normalizeParsed cand)
  · intro method contentLength now store body upstream
    cases upstream with
    | error m =>
      unfold handler
      split_ifs
      · rfl
      · rfl
      · cases (checkRateLimit now store).1.retryAfter <;> rfl
      · cases (validateInput (jsGet body "message") (jsGet body "mode")).error <;> rfl
      · rfl
    | ok raw =>
      unfold handler
      split_ifs
      · rfl
      · rfl
      · cases (checkRateLimit now store).1.retryAfter <;> rfl
      · cases (validateInput (jsGet body "message") (jsGet body "mode")).error <;> rfl
      · rfl

-- ===========================================================================
-- Claims C4, C5, C10: handler behaviour
-- ===========================================================================

/-- C4: for a POST request that passes the size, rate-limit and input
checks, an upstream success whose reply yields no extraction result is not
an error: the handler answers 200 with `emotional_read` set to
`frustration` and the six other fields empty. -/
theorem handler_extraction_fallback (contentLength : Option String) (now : Nat)
    (store : Option RateLimitEntry) (body : Json) (raw : String)
    (hsize : sizeExceeded contentLength = false)
    (hrate : (checkRateLimit now store).1.allowed = true)
    (hvalid : (validateInput (jsGet body "message") (jsGet body "mode")).valid = true)
    (hext : extractFirstJsonObject raw = none) :
    (handler "POST" contentLength now store body (Except.ok raw)).1 =
      { status := 200
        body := Json.obj [("emotional_read", Json.str "frustration"),
          ("validation", Json.str ""), ("tactical_breakdown", Json.str ""),
          ("reframing", Json.str ""), ("humor", Json.str ""),
          ("fan_ritual", Json.str ""), ("closing", Json.str "")]
        retryAfterHeader := none } := by
  unfold handler
  rw [if_neg (by simp), if_neg (by simp [hsize]), if_neg (by simp [hrate]),
    if_neg (by simp [hvalid])]
  simp only [hext]
  rfl

/-- Witness for C4: a concrete braces-free upstream reply produces the
default record with status 200. -/
theorem handler_extraction_fallback_witness :
    (handler "POST" none 0 none bodyTL (Except.ok "all prose and no braces at all")).1 =
      { status := 200
        body := Json.obj [("emotional_read", Json.str "frustration"),
          ("validation", Json.str ""), ("tactical_breakdown", Json.str ""),
          ("reframing", Json.str ""), ("humor", Json.str ""),
          ("fan_ritual", Json.str ""), ("closing", Json.str "")]
        retryAfterHeader := none } :=
  handler_extraction_fallback none 0 none bodyTL "all prose and no braces at all"
    rfl rfl rfl rfl

/-- C5 (amended): an upstream failure — missing credential, transport
failure, or non-success upstream status — surfaces as a 500 whose `error`
field is exactly the thrown exception's message; for a non-success upstream
status that message is `Model API error: <status> <body text>`, so the
client-facing body does include the upstream status code and body text. -/
theorem handler_upstream_error_500 :
    (∀ (contentLength : Option String) (now : Nat) (store : Option RateLimitEntry)
       (body : Json) (m : String),
      sizeExceeded contentLength = false →
      (checkRateLimit now store).1.allowed = true →
      (validateInput (jsGet body "message") (jsGet body "mode")).valid = true →
      (handler "POST" contentLength now store body (Except.error m)).1 =
        { status := 500, body := Json.obj [("error", Json.str m)],
          retryAfterHeader := none }) ∧
    (∀ (key : String) (status : Nat) (txt content : String),
      callModel (some key) (Except.ok (false, status, txt, content)) =
        Except.error (modelApiErrorMsg status txt)) ∧
    (∀ (key : String) (m : String),
      callModel (some key) (Except.error m) = Except.error m) ∧
    (callModel none (Except.error "") =
      Except.error "Missing OPENAI_API_KEY in environment") := by
  refine ⟨?_, fun key status txt content => rfl, fun key m => rfl, rfl⟩
  intro contentLength now store body m hsize hrate hvalid
  unfold handler
  rw [if_neg (by simp), if_neg (by simp [hsize]), if_neg (by simp [hrate]),
    if_neg (by simp [hvalid])]

/-- Counterexample for C5 as stated: with a configured credential and a
non-success upstream status of 502, the endpoint's 500 body carries the
upstream status code and body text inside its `error` field, so the claim
that the body never includes them is false at this input. -/
theorem handler_upstream_error_leaks :
    c5resp.status = 500 ∧
    c5resp.body = Json.obj [("error", Json.str "Model API error: 502 bad gateway")] ∧
    (∃ pre post, "Model API error: 502 bad gateway" = pre ++ "502" ++ post) ∧
    (∃ pre post, "Model API error: 502 bad gateway" = pre ++ "bad gateway" ++ post) :=
  ⟨rfl, rfl, ⟨"Model API error: ", " bad gateway", rfl⟩,
    ⟨"Model API error: 502 ", "", rfl⟩⟩

/-- Witness for C5 (amended): a concrete transport failure message `boom`
is returned verbatim in the 500 body. -/
theorem handler_upstream_error_500_witness :
    (handler "POST" none 0 none bodyTL (Except.error "boom")).1 =
      { status := 500, body := Json.obj [("error", Json.str "boom")],
        retryAfterHeader := none } :=
  handler_upstream_error_500.1 none 0 none bodyTL "boom" rfl rfl rfl

/-- C10: when the `content-length` header is absent the size check is
skipped entirely — the handler never answers 413, whatever the other inputs
(in particular whatever the actual body) are. -/
theorem handler_no_413_without_content_length :
    ∀ (method : String) (now : Nat) (store : Option RateLimitEntry) (body : Json)
      (upstream : Except String String),
      ((handler method none now store body upstream).1.status == 413) = false := by
  intro method now store body upstream
  cases upstream with
  | error m =>
    unfold handler
    split_ifs with h1 h2 h3 h4
    · rfl
    · simp [sizeExceeded] at h2
    · rfl
    · rfl
    · rfl
  | ok raw =>
    unfold handler
    split_ifs with h1 h2 h3 h4
    · rfl
    · simp [sizeExceeded] at h2
    · rfl
    · rfl
    · rfl
